import Mathlib

/-!
Verification of the lambda-manager core of this repository
(`cvat/apps/lambda_manager/views.py`): attribute compatibility checking,
invocation validation, queue admission policy, the detection pipeline and
the re-identification track assembler, shallowly embedded in Lean.
-/

namespace Spec2Proof

/-! ### Cross-type attribute compatibility (`check_attr_value`, views.py 343-371) -/

/-- Model of Python `str.isnumeric` restricted to ASCII digits: true iff the
string is nonempty and every character is a digit. Only the digit fragment is
exercised by the claims. -/
def isnumeric (s : String) : Bool :=
  !s.isEmpty && s.toList.all Char.isDigit

/-- Embedding of `check_attr_value(value, func_attr, db_attr)` (views.py
343-371). `func_attr_type` is the function's declared `input_type`,
`db_attr` is the task attribute spec looked up in `supported_attrs`
(`none` when the lookup failed, in which case the value is rejected).
`value in ["true", "false"]` and `len(value.split(" ")) == 1` are kept
literally; input types are the raw strings the source compares. -/
def check_attr_value (value : String) (func_attr_type : String)
    (db_attr : Option String) : Bool :=
  match db_attr with
  | none => false
  | some db_attr_type =>
    if func_attr_type = db_attr_type then
      if func_attr_type = "number" then isnumeric value
      else if func_attr_type = "checkbox" then decide (value ∈ ["true", "false"])
      else if func_attr_type = "select" ∨ func_attr_type = "radio" ∨ func_attr_type = "text" then
        true
      else false
    else
      if func_attr_type = "number" then
        decide (db_attr_type ∈ ["select", "radio", "text"]) && isnumeric value
      else if func_attr_type = "text" then
        decide (db_attr_type = "text") ||
          (decide (db_attr_type ∈ ["select", "radio"]) &&
            decide ((value.splitOn " ").length = 1))
      else if func_attr_type = "select" then
        decide (db_attr_type ∈ ["radio", "text"])
      else if func_attr_type = "radio" then
        decide (db_attr_type ∈ ["select", "text"])
      else if func_attr_type = "checkbox" then
        decide (value ∈ ["true", "false"])
      else false

/-! ### Quality resolution (`_get_image`, views.py 404-418) -/

/-- The two frame qualities of `FrameProvider.Quality`. -/
inductive FrameQuality
  | original
  | compressed
deriving DecidableEq, Repr

/-- Error taxonomy of the invocation path: `validation` is a structured
`ValidationError` carrying its message; `keyError` is an unstructured Python
`KeyError` escaping from a plain `data[...]` subscript. -/
inductive InvokeErr
  | validation (msg : String)
  | keyError (key : String)
deriving DecidableEq, Repr

/-- Message of the quality `ValidationError` (views.py 410-413). -/
def qualityMsg (fid q : String) : String :=
  "`" ++ fid ++ "` lambda function was run with wrong arguments (quality=" ++ q ++ ")"

/-- Quality resolution of `_get_image` (views.py 404-413): `None` or
`"original"` resolve to original quality, `"compressed"` to compressed,
anything else raises a `ValidationError`. -/
def resolveQuality (fid : String) (quality : Option String) :
    Except InvokeErr FrameQuality :=
  match quality with
  | none => .ok .original
  | some q =>
    if q = "original" then .ok .original
    else if q = "compressed" then .ok .compressed
    else .error (.validation (qualityMsg fid q))

/-- Rest of `_get_image` (views.py 415-418): the frame fetch and base64
encoding always succeed and are abstracted to the frame id itself; only the
quality resolution can fail. -/
def getImage (fid : String) (frame : Int) (quality : Option String) :
    Except InvokeErr Int := do
  let _ ← resolveQuality fid quality
  .ok frame

/-! ### Queue admission (`LambdaQueue.get_jobs` / `enqueue`, views.py 424-448) -/

/-- rq job statuses relevant to the queue policy. -/
inductive JobStatus
  | queued
  | deferred
  | scheduled
  | started
  | finished
  | failed
deriving DecidableEq, Repr

/-- A job handle as `get_jobs` sees it: the target task id, the rq status,
and whether its meta carries the `lambda` tag. -/
structure QJob where
  task : Nat
  status : JobStatus
  isLambda : Bool
deriving DecidableEq, Repr

/-- `LambdaQueue.get_jobs` (views.py 424-434): of all registry jobs, keep
those whose meta has the `lambda` tag. `jobs` stands for the union of the
queued/started/finished/scheduled/deferred registries (failed jobs are not
in it, mirroring the source comment). -/
def getJobs (jobs : List QJob) : List QJob :=
  jobs.filter (fun j => j.isLambda)

/-- Conflict message of `enqueue` (views.py 446-448). -/
def conflictMsg (task : Nat) : String :=
  "Only one running request is allowed for the same task #" ++ toString task

/-- `LambdaQueue.enqueue` admission check (views.py 436-448): reject with a
conflict error iff some known lambda job targets the same task and is not
finished; otherwise the job is admitted (enqueueing itself is abstracted). -/
def enqueue (jobs : List QJob) (task : Nat) : Except String Unit :=
  if ((getJobs jobs).filter
      (fun j => decide (j.task = task ∧ j.status ≠ JobStatus.finished))).isEmpty
  then .ok ()
  else .error (conflictMsg task)

/-! ### Theorems for C1, C8, C10 -/

/-- Claim C1, counterexample: with function attribute type `checkbox` and a
different task attribute type `text`, the value `"true"` is accepted by
`check_attr_value`, while the claim states every checkbox cross-type value is
rejected. -/
theorem C1_counterexample :
    check_attr_value "true" "checkbox" (some "text") = true := by decide

/-- Claim C1, amended: when the function's declared input type is `checkbox`
and the task's declared type differs, `check_attr_value` accepts the value
iff it is the literal `"true"` or `"false"` (it is not always rejected). -/
theorem C1_amended (v db : String) (h : db ≠ "checkbox") :
    check_attr_value v "checkbox" (some db) = decide (v ∈ ["true", "false"]) := by
  have h' : ¬ ("checkbox" = db) := fun hh => h hh.symm
  unfold check_attr_value
  dsimp only
  rw [if_neg h', if_neg (by decide), if_neg (by decide), if_neg (by decide),
    if_neg (by decide), if_pos rfl]

/-- Witness for C1_amended at value `"yes"`, task type `"text"`. -/
theorem C1_witness :
    check_attr_value "yes" "checkbox" (some "text") = decide ("yes" ∈ ["true", "false"]) :=
  C1_amended "yes" "text" (by decide)

/-- Claim C8: `enqueue` rejects with the conflict error iff among the known
lambda jobs there is one targeting the same task whose status is not
`finished`; otherwise the job is admitted. -/
theorem C8_enqueue_conflict_iff (jobs : List QJob) (task : Nat) :
    (enqueue jobs task = .error (conflictMsg task) ↔
      ∃ j ∈ getJobs jobs, j.task = task ∧ j.status ≠ JobStatus.finished) ∧
    ((¬ ∃ j ∈ getJobs jobs, j.task = task ∧ j.status ≠ JobStatus.finished) →
      enqueue jobs task = .ok ()) := by
  have key : (((getJobs jobs).filter
      (fun j => decide (j.task = task ∧ j.status ≠ JobStatus.finished))).isEmpty = true) ↔
      ¬ ∃ j ∈ getJobs jobs, j.task = task ∧ j.status ≠ JobStatus.finished := by
    simp [List.isEmpty_iff, List.filter_eq_nil_iff]
  constructor
  · by_cases hc : (((getJobs jobs).filter
        (fun j => decide (j.task = task ∧ j.status ≠ JobStatus.finished))).isEmpty = true)
    · unfold enqueue
      rw [if_pos hc]
      constructor
      · intro h; exact Except.noConfusion h
      · intro hex; exact absurd hex (key.mp hc)
    · unfold enqueue
      rw [if_neg hc]
      constructor
      · intro _
        by_contra hne
        exact hc (key.mpr hne)
      · intro _; rfl
  · intro h
    unfold enqueue
    rw [if_pos (key.mpr h)]

/-- Witness for C8 at a queue holding one unfinished lambda job for task 7. -/
theorem C8_witness :
    enqueue [⟨7, JobStatus.started, true⟩] 7 = .error (conflictMsg 7) :=
  (C8_enqueue_conflict_iff [⟨7, JobStatus.started, true⟩] 7).1.mpr
    ⟨⟨7, JobStatus.started, true⟩, by decide, rfl, by decide⟩

/-- Claim C10: an omitted (`None`) quality resolves to original quality,
exactly as the explicit `"original"` does; `"compressed"` resolves to
compressed; and the quality validation failure occurs only for a present
value other than `"original"`/`"compressed"` — omitting quality is never an
error, and the image fetch succeeds for it. -/
theorem C10_quality_resolution (fid : String) :
    resolveQuality fid none = .ok .original ∧
    resolveQuality fid (some "original") = .ok .original ∧
    resolveQuality fid (some "compressed") = .ok .compressed ∧
    (∀ fr : Int, getImage fid fr none = .ok fr ∧ getImage fid fr (some "original") = .ok fr) ∧
    (∀ q, q ≠ "original" → q ≠ "compressed" →
      resolveQuality fid (some q) = .error (.validation (qualityMsg fid q))) := by
  refine ⟨rfl, rfl, rfl, fun fr => ⟨rfl, rfl⟩, fun q h1 h2 => ?_⟩
  unfold resolveQuality
  dsimp only
  rw [if_neg h1, if_neg h2]

/-- Witness for C10 at quality `"best"`. -/
theorem C10_witness :
    resolveQuality "f" (some "best") = .error (.validation (qualityMsg "f" "best")) :=
  (C10_quality_resolution "f").2.2.2.2 "best" (by decide) (by decide)

/-! ### Invocation builder (`LambdaFunction.invoke`, views.py 203-335) -/

/-- The function kinds of `LambdaType` (views.py 45-50). -/
inductive LambdaKind
  | detector
  | interactor
  | reid
  | tracker
  | unknown
deriving DecidableEq, Repr

/-- Lookup of an argument in the (already `None`-filtered) input data, by
name. Argument values are abstracted to integers: frame-bearing arguments
carry their frame index, other arguments a dummy value — only presence and
frame values matter to the validation logic. -/
def argLookup (data : List (String × Int)) (k : String) : Option Int :=
  match data with
  | [] => none
  | (k', v) :: rest => if k' = k then some v else argLookup rest k

/-- Message of the missing-mandatory-argument `ValidationError`
(views.py 224-227). -/
def mandatoryMsg (fid key : String) : String :=
  "`" ++ fid ++ "` lambda function was called without mandatory argument: " ++ key

/-- `mandatory_arg` (views.py 220-227): return the argument or raise a
structured `ValidationError` naming the missing field. -/
def mandatory_arg (fid : String) (data : List (String × Int)) (name : String) :
    Except InvokeErr Int :=
  match argLookup data name with
  | some v => .ok v
  | none => .error (.validation (mandatoryMsg fid name))

/-- A plain `data[name]` subscript (no mandatory check): absence raises an
unstructured Python `KeyError`. -/
def plainArg (data : List (String × Int)) (name : String) : Except InvokeErr Int :=
  match argLookup data name with
  | some v => .ok v
  | none => .error (.keyError name)

/-- The parts of a `LambdaFunction` the invocation builder reads. -/
structure FuncModel where
  id : String
  kind : LambdaKind
  startswith_box : Bool

/-- Per-kind payload assembly (views.py 295-335), with field expressions
evaluated in source order. `detector` reads `data["frame"]` by plain
subscript (the `data_path` computation and the `_get_image` call), so a
missing frame surfaces as a `KeyError`; the other kinds fetch their
arguments through `mandatory_arg`. Image payloads go through the quality
resolution of `_get_image`; point lists, boxes, shapes and states are
abstracted to their looked-up values. -/
def buildPayload (f : FuncModel) (quality : Option String)
    (data : List (String × Int)) : Except InvokeErr (List (String × Int)) :=
  match f.kind with
  | .detector => do
      let frame ← plainArg data "frame"
      let img ← getImage f.id frame quality
      .ok [("image", img), ("data_path", 0)]
  | .interactor => do
      let frame ← mandatory_arg f.id data "frame"
      let img ← getImage f.id frame quality
      let pos ← mandatory_arg f.id data "pos_points"
      let neg ← mandatory_arg f.id data "neg_points"
      let obb ← if f.startswith_box then mandatory_arg f.id data "pos_points" else .ok 0
      .ok [("image", img), ("pos_points", pos), ("neg_points", neg), ("obj_bbox", obb)]
  | .reid => do
      let frame0 ← mandatory_arg f.id data "frame0"
      let img0 ← getImage f.id frame0 quality
      let frame1 ← mandatory_arg f.id data "frame1"
      let img1 ← getImage f.id frame1 quality
      let b0 ← mandatory_arg f.id data "boxes0"
      let b1 ← mandatory_arg f.id data "boxes1"
      .ok [("image0", img0), ("image1", img1), ("boxes0", b0), ("boxes1", b1)]
  | .tracker => do
      let frame ← mandatory_arg f.id data "frame"
      let img ← getImage f.id frame quality
      .ok [("image", img),
           ("shapes", (argLookup data "shapes").getD 0),
           ("states", (argLookup data "states").getD 0)]
  | .unknown =>
      .error (.validation ("`" ++ f.id ++ "` lambda function has incorrect type"))

/-- Message of the job-range `ValidationError` (views.py 291-292). -/
def frameBoundMsg (desc : String) : String :=
  "The " ++ desc ++ " is outside the job range"

/-- One iteration of the job-boundary loop (views.py 281-292): if the
argument named `key` is present, convert its relative frame index to the
absolute index `startFrame + value * step` and require membership in the
job segment's frame set; violation raises a `ValidationError` whose message
names the field via `desc`. -/
def checkKey (startFrame step : Int) (segFrames : List Int)
    (data : List (String × Int)) (key desc : String) : Except InvokeErr Unit :=
  match argLookup data key with
  | none => .ok ()
  | some v =>
    if (startFrame + v * step) ∈ segFrames then .ok ()
    else .error (.validation (frameBoundMsg desc))

/-- The whole job-boundary check (views.py 275-292), iterating
`frame`/`frame0`/`frame1` in source order with their field descriptions. -/
def checkFrameBounds (startFrame step : Int) (segFrames : List Int)
    (data : List (String × Int)) : Except InvokeErr Unit := do
  let _ ← checkKey startFrame step segFrames data "frame" "frame"
  let _ ← checkKey startFrame step segFrames data "frame0" "start frame"
  let _ ← checkKey startFrame step segFrames data "frame1" "end frame"
  .ok ()

/-- `LambdaFunction.invoke` validation pipeline: when a job scope is given
(as `(start_frame, frame step, segment frame set)`), the boundary check runs
first (views.py 276-292), then the per-kind payload assembly
(views.py 295-335). Label/attribute mapping construction raises no errors
and is modelled separately. -/
def invokeModel (f : FuncModel) (jobSeg : Option (Int × Int × List Int))
    (quality : Option String) (data : List (String × Int)) :
    Except InvokeErr (List (String × Int)) :=
  match jobSeg with
  | some (st, stp, seg) => do
      let _ ← checkFrameBounds st stp seg data
      buildPayload f quality data
  | none => buildPayload f quality data

/-! ### Helper lemmas for the invocation builder -/

theorem err_bind {α β : Type} (e : InvokeErr) (g : α → Except InvokeErr β) :
    (Except.error e >>= g) = Except.error e := rfl

theorem ok_bind {α β : Type} (a : α) (g : α → Except InvokeErr β) :
    (Except.ok a >>= g) = g a := rfl

theorem mandatory_arg_none (fid : String) {data : List (String × Int)}
    {name : String} (h : argLookup data name = none) :
    mandatory_arg fid data name = .error (.validation (mandatoryMsg fid name)) := by
  unfold mandatory_arg; rw [h]

theorem mandatory_arg_some (fid : String) {data : List (String × Int)}
    {name : String} {v : Int} (h : argLookup data name = some v) :
    mandatory_arg fid data name = .ok v := by
  unfold mandatory_arg; rw [h]

theorem getImage_ok (fid : String) (fr : Int) {q : Option String}
    {fq : FrameQuality} (h : resolveQuality fid q = .ok fq) :
    getImage fid fr q = .ok fr := by
  unfold getImage; rw [h]; rfl

theorem checkKey_some_notMem {st stp : Int} {seg : List Int}
    {data : List (String × Int)} {key : String} (desc : String) {v : Int}
    (h : argLookup data key = some v) (hm : (st + v * stp) ∉ seg) :
    checkKey st stp seg data key desc = .error (.validation (frameBoundMsg desc)) := by
  unfold checkKey; rw [h]; dsimp only; rw [if_neg hm]

/-! ### Theorems for C5 and C7 -/

/-- Claim C5, counterexample: a detector invoked without the `frame` argument
fails with an unstructured `KeyError`, not a structured validation failure,
because the detector branch reads `data["frame"]` by plain subscript
(views.py 296-303) instead of using `mandatory_arg`. -/
theorem C5_counterexample :
    invokeModel ⟨"f", LambdaKind.detector, false⟩ none none [] =
      .error (.keyError "frame") := rfl

/-- Claim C5, amended: for the interactor, reid and tracker kinds, each
missing mandatory argument (with the earlier-evaluated arguments present and
the quality valid) raises a structured validation failure whose message names
the missing field; for the detector, a missing `frame` instead escapes as an
unstructured `KeyError`. -/
theorem C5_amended :
    (∀ (f : FuncModel) (q : Option String) (data : List (String × Int)),
      f.kind = .interactor → argLookup data "frame" = none →
      invokeModel f none q data = .error (.validation (mandatoryMsg f.id "frame"))) ∧
    (∀ (f : FuncModel) (q : Option String) (data : List (String × Int)) (v : Int)
        (fq : FrameQuality), f.kind = .interactor →
      argLookup data "frame" = some v → resolveQuality f.id q = .ok fq →
      argLookup data "pos_points" = none →
      invokeModel f none q data = .error (.validation (mandatoryMsg f.id "pos_points"))) ∧
    (∀ (f : FuncModel) (q : Option String) (data : List (String × Int)) (v w : Int)
        (fq : FrameQuality), f.kind = .interactor →
      argLookup data "frame" = some v → resolveQuality f.id q = .ok fq →
      argLookup data "pos_points" = some w → argLookup data "neg_points" = none →
      invokeModel f none q data = .error (.validation (mandatoryMsg f.id "neg_points"))) ∧
    (∀ (f : FuncModel) (q : Option String) (data : List (String × Int)),
      f.kind = .reid → argLookup data "frame0" = none →
      invokeModel f none q data = .error (.validation (mandatoryMsg f.id "frame0"))) ∧
    (∀ (f : FuncModel) (q : Option String) (data : List (String × Int)) (v : Int)
        (fq : FrameQuality), f.kind = .reid →
      argLookup data "frame0" = some v → resolveQuality f.id q = .ok fq →
      argLookup data "frame1" = none →
      invokeModel f none q data = .error (.validation (mandatoryMsg f.id "frame1"))) ∧
    (∀ (f : FuncModel) (q : Option String) (data : List (String × Int)) (v w : Int)
        (fq : FrameQuality), f.kind = .reid →
      argLookup data "frame0" = some v → resolveQuality f.id q = .ok fq →
      argLookup data "frame1" = some w → argLookup data "boxes0" = none →
      invokeModel f none q data = .error (.validation (mandatoryMsg f.id "boxes0"))) ∧
    (∀ (f : FuncModel) (q : Option String) (data : List (String × Int)) (v w x : Int)
        (fq : FrameQuality), f.kind = .reid →
      argLookup data "frame0" = some v → resolveQuality f.id q = .ok fq →
      argLookup data "frame1" = some w → argLookup data "boxes0" = some x →
      argLookup data "boxes1" = none →
      invokeModel f none q data = .error (.validation (mandatoryMsg f.id "boxes1"))) ∧
    (∀ (f : FuncModel) (q : Option String) (data : List (String × Int)),
      f.kind = .tracker → argLookup data "frame" = none →
      invokeModel f none q data = .error (.validation (mandatoryMsg f.id "frame"))) ∧
    (∀ (f : FuncModel) (q : Option String) (data : List (String × Int)),
      f.kind = .detector → argLookup data "frame" = none →
      invokeModel f none q data = .error (.keyError "frame")) := by
  refine ⟨?_, ?_, ?_, ?_, ?_, ?_, ?_, ?_, ?_⟩
  · rintro ⟨fid, fk, fsb⟩ q data hk h1
    cases hk
    dsimp only [invokeModel, buildPayload]
    rw [mandatory_arg_none fid h1]
    rfl
  · rintro ⟨fid, fk, fsb⟩ q data v fq hk h1 hq h2
    cases hk
    dsimp only [invokeModel, buildPayload]
    rw [mandatory_arg_some fid h1]
    simp only [ok_bind]
    rw [getImage_ok fid v hq]
    simp only [ok_bind]
    rw [mandatory_arg_none fid h2]
    rfl
  · rintro ⟨fid, fk, fsb⟩ q data v w fq hk h1 hq h2 h3
    cases hk
    dsimp only [invokeModel, buildPayload]
    rw [mandatory_arg_some fid h1]
    simp only [ok_bind]
    rw [getImage_ok fid v hq]
    simp only [ok_bind]
    rw [mandatory_arg_some fid h2]
    simp only [ok_bind]
    rw [mandatory_arg_none fid h3]
    rfl
  · rintro ⟨fid, fk, fsb⟩ q data hk h1
    cases hk
    dsimp only [invokeModel, buildPayload]
    rw [mandatory_arg_none fid h1]
    rfl
  · rintro ⟨fid, fk, fsb⟩ q data v fq hk h1 hq h2
    cases hk
    dsimp only [invokeModel, buildPayload]
    rw [mandatory_arg_some fid h1]
    simp only [ok_bind]
    rw [getImage_ok fid v hq]
    simp only [ok_bind]
    rw [mandatory_arg_none fid h2]
    rfl
  · rintro ⟨fid, fk, fsb⟩ q data v w fq hk h1 hq h2 h3
    cases hk
    dsimp only [invokeModel, buildPayload]
    rw [mandatory_arg_some fid h1]
    simp only [ok_bind]
    rw [getImage_ok fid v hq]
    simp only [ok_bind]
    rw [mandatory_arg_some fid h2]
    simp only [ok_bind]
    rw [getImage_ok fid w hq]
    simp only [ok_bind]
    rw [mandatory_arg_none fid h3]
    rfl
  · rintro ⟨fid, fk, fsb⟩ q data v w x fq hk h1 hq h2 h3 h4
    cases hk
    dsimp only [invokeModel, buildPayload]
    rw [mandatory_arg_some fid h1]
    simp only [ok_bind]
    rw [getImage_ok fid v hq]
    simp only [ok_bind]
    rw [mandatory_arg_some fid h2]
    simp only [ok_bind]
    rw [getImage_ok fid w hq]
    simp only [ok_bind]
    rw [mandatory_arg_some fid h3]
    simp only [ok_bind]
    rw [mandatory_arg_none fid h4]
    rfl
  · rintro ⟨fid, fk, fsb⟩ q data hk h1
    cases hk
    dsimp only [invokeModel, buildPayload]
    rw [mandatory_arg_none fid h1]
    rfl
  · rintro ⟨fid, fk, fsb⟩ q data hk h1
    cases hk
    dsimp only [invokeModel, buildPayload, plainArg]
    rw [h1]
    rfl

/-- Witness for C5_amended: an interactor invoked with empty data fails with
the structured message naming `frame`. -/
theorem C5_witness :
    invokeModel ⟨"f", LambdaKind.interactor, false⟩ none none [] =
      .error (.validation (mandatoryMsg "f" "frame")) :=
  C5_amended.1 ⟨"f", LambdaKind.interactor, false⟩ none [] rfl rfl

/-- Claim C7: under a job scope, each present frame-bearing argument is
converted to the absolute frame index `start_frame + value * step` and
checked against the job segment's frame set; the first out-of-range field
raises a validation failure naming it (`frame` / `start frame` /
`end frame`), in-range data passes, and the failure propagates out of the
whole invocation. -/
theorem C7_frame_bounds :
    (∀ (st stp : Int) (seg : List Int) (data : List (String × Int)) (v : Int),
      argLookup data "frame" = some v → (st + v * stp) ∉ seg →
      checkFrameBounds st stp seg data = .error (.validation (frameBoundMsg "frame"))) ∧
    (∀ (st stp : Int) (seg : List Int) (data : List (String × Int)) (v : Int),
      checkKey st stp seg data "frame" "frame" = .ok () →
      argLookup data "frame0" = some v → (st + v * stp) ∉ seg →
      checkFrameBounds st stp seg data = .error (.validation (frameBoundMsg "start frame"))) ∧
    (∀ (st stp : Int) (seg : List Int) (data : List (String × Int)) (v : Int),
      checkKey st stp seg data "frame" "frame" = .ok () →
      checkKey st stp seg data "frame0" "start frame" = .ok () →
      argLookup data "frame1" = some v → (st + v * stp) ∉ seg →
      checkFrameBounds st stp seg data = .error (.validation (frameBoundMsg "end frame"))) ∧
    (∀ (st stp : Int) (seg : List Int) (data : List (String × Int)),
      checkKey st stp seg data "frame" "frame" = .ok () →
      checkKey st stp seg data "frame0" "start frame" = .ok () →
      checkKey st stp seg data "frame1" "end frame" = .ok () →
      checkFrameBounds st stp seg data = .ok ()) ∧
    (∀ (f : FuncModel) (st stp : Int) (seg : List Int) (q : Option String)
        (data : List (String × Int)) (e : InvokeErr),
      checkFrameBounds st stp seg data = .error e →
      invokeModel f (some (st, stp, seg)) q data = .error e) := by
  refine ⟨?_, ?_, ?_, ?_, ?_⟩
  · intro st stp seg data v h1 h2
    unfold checkFrameBounds
    rw [checkKey_some_notMem "frame" h1 h2]
    rfl
  · intro st stp seg data v h0 h1 h2
    unfold checkFrameBounds
    rw [h0]
    simp only [ok_bind]
    rw [checkKey_some_notMem "start frame" h1 h2]
    rfl
  · intro st stp seg data v h0 h0' h1 h2
    unfold checkFrameBounds
    rw [h0]
    simp only [ok_bind]
    rw [h0']
    simp only [ok_bind]
    rw [checkKey_some_notMem "end frame" h1 h2]
    rfl
  · intro st stp seg data h0 h1 h2
    unfold checkFrameBounds
    rw [h0]
    simp only [ok_bind]
    rw [h1]
    simp only [ok_bind]
    rw [h2]
    rfl
  · intro f st stp seg q data e h
    dsimp only [invokeModel]
    rw [h]
    rfl

/-- Witness for C7_frame_bounds: relative frame 9 with start 0 and step 1
falls outside the segment `[5]` and is reported as `frame` out of range. -/
theorem C7_witness :
    checkFrameBounds 0 1 [(5 : Int)] [("frame", (9 : Int))] =
      .error (.validation (frameBoundMsg "frame")) :=
  C7_frame_bounds.1 0 1 [(5 : Int)] [("frame", (9 : Int))] 9 (by decide) (by decide)

/-! ### Detection pipeline (`LambdaJob._call_detector`, views.py 539-663)

The per-frame loop is modelled as a fold over the scope's frame set. The
`Results` accumulator keeps only the count of accumulated annotations (the
claims are about commit cadence and totals, not shape contents); `annos f`
is the number of annotations the function returns for frame `f` that survive
label mapping; `alive f` is what `_update_progress`'s status poll observes
while processing frame `f` (`false` once the job record has been deleted).
`processed` records the frames whose annotations were accumulated and
`progressLog` the successive values written to the job's progress meta. -/

/-- State of one detection run. -/
structure DetRun where
  buffer : Nat
  commits : List (Option Nat × Nat)
  processed : List Nat
  progressLog : List Nat
  stopped : Bool
deriving DecidableEq, Repr

/-- The progress value `int((frame + 1) / size * 100)` written by
`_update_progress` (views.py 598, 660); float rounding composed with `int`
truncation agrees with natural division here and is monotone either way. -/
def progOf (size frame : Nat) : Nat :=
  ((frame + 1) * 100) / size

/-- `Results.submit` (views.py 564-575): an empty accumulator is not
committed; otherwise the buffered batch is committed in one call, tagged
with the frame that triggered it (`none` for the final flush), and the
accumulator is cleared. -/
def detSubmit (trigger : Option Nat) (r : DetRun) : DetRun :=
  if r.buffer = 0 then r
  else { r with commits := r.commits ++ [(trigger, r.buffer)], buffer := 0 }

/-- One iteration of the frame loop (views.py 589-650): a stopped run does
nothing further; deleted frames are skipped; otherwise the function is
invoked, progress is written, the status poll may stop the run before the
frame's annotations are accumulated, and after every 100th nonzero frame the
accumulator is committed. -/
def detStep (size : Nat) (deleted : List Nat) (annos : Nat → Nat)
    (alive : Nat → Bool) (r : DetRun) (frame : Nat) : DetRun :=
  if r.stopped then r
  else if frame ∈ deleted then r
  else
    let r1 := { r with progressLog := r.progressLog ++ [progOf size frame] }
    if !(alive frame) then { r1 with stopped := true }
    else
      let r2 := { r1 with processed := r1.processed ++ [frame],
                          buffer := r1.buffer + annos frame }
      if frame ≠ 0 ∧ frame % 100 = 0 then detSubmit (some frame) r2 else r2

/-- The initial accumulator (`Results.reset`, views.py 580-583). -/
def detInit : DetRun := ⟨0, [], [], [], false⟩

/-- The frame loop (views.py 589-650). -/
def detLoop (size : Nat) (deleted : List Nat) (annos : Nat → Nat)
    (alive : Nat → Bool) (frameSet : List Nat) (r : DetRun) : DetRun :=
  frameSet.foldl (detStep size deleted annos alive) r

/-- `_call_detector` end to end: the frame loop followed by the final
`results.submit()` (views.py 652), which runs even after an early break. -/
def detRun (size : Nat) (deleted : List Nat) (annos : Nat → Nat)
    (alive : Nat → Bool) (frameSet : List Nat) : DetRun :=
  detSubmit none (detLoop size deleted annos alive frameSet detInit)

set_option maxRecDepth 40000

/-- Claim C3: on a 250-frame task with one persisted shape per frame, no
deleted frames and no cancellation, exactly three commits happen — triggered
after frame 100 (101 shapes), after frame 200 (100 shapes) and by the final
flush (49 shapes) — and the committed shape total is 250. -/
theorem C3_detection_batching :
    (detRun 250 [] (fun _ => 1) (fun _ => true) (List.range 250)).commits =
      [(some 100, 101), (some 200, 100), (none, 49)] ∧
    (((detRun 250 [] (fun _ => 1) (fun _ => true) (List.range 250)).commits).map
        Prod.snd).sum = 250 ∧
    ((detRun 250 [] (fun _ => 1) (fun _ => true) (List.range 250)).commits).length = 3 := by
  refine ⟨?_, ?_, ?_⟩ <;> decide

/-! ### Re-identification track assembler (`LambdaJob._call_reid`, views.py 680-775)

Rectangle shapes are bucketed by frame (`boxes_by_frame`); a box is
identified by the pair `(frame, index in its bucket)`. The Python dicts
`paths` (path id, consecutive from 0, to its ordered box list) and the
per-box mutable `path_id` field become the `paths` list and the `pathOf`
association list (later entries shadow earlier ones, matching dict-field
overwrite). `appendLog` is a pure history variable recording every
`paths[path_id].append(boxes1[idx1])` event as `(path_id, box)`. -/

/-- A rectangle shape as the assembler needs it: its label and an abstract
payload for the remaining fields (points etc.); its frame is the bucket key. -/
structure Box where
  label_id : Nat
  payload : Nat
deriving DecidableEq, Repr

/-- A box reference: (frame, index in that frame's bucket). -/
abbrev BoxRef := Nat × Nat

/-- Path-assembly state. -/
structure ReidState where
  paths : List (List BoxRef)
  pathOf : List (BoxRef × Nat)
  appendLog : List (Nat × BoxRef)
deriving DecidableEq, Repr

/-- Most-recent-first association lookup (a box's current `path_id`). -/
def lookupRef (l : List (BoxRef × Nat)) (r : BoxRef) : Option Nat :=
  match l with
  | [] => none
  | (k, v) :: rest => if k = r then some v else lookupRef rest r

/-- `for box in boxes0: if "path_id" not in box: ...` (views.py 709-713 and
732-736): every box of the bucket lacking a path identity starts a new
singleton path whose id is the current number of paths. -/
def startPaths (frame : Nat) (n : Nat) (s : ReidState) : ReidState :=
  (List.range n).foldl
    (fun t idx =>
      if (lookupRef t.pathOf (frame, idx)).isSome then t
      else { t with paths := t.paths ++ [[(frame, idx)]],
                    pathOf := ((frame, idx), t.paths.length) :: t.pathOf })
    s

/-- One `paths[path_id].append(boxes1[idx1])` plus
`boxes1[idx1]["path_id"] = path_id` (views.py 724-726), with its log entry. -/
def appendBox (pid : Nat) (r : BoxRef) (s : ReidState) : ReidState :=
  { s with paths := s.paths.set pid ((s.paths.getD pid []) ++ [r]),
           pathOf := (r, pid) :: s.pathOf,
           appendLog := s.appendLog ++ [(pid, r)] }

/-- `for idx0, idx1 in enumerate(matching)` (views.py 722-726): every
nonnegative matched index propagates the `idx0` box's path id onto
`boxes1[idx1]` and appends that box to the path. A failed path lookup
(matching longer than `boxes0`, an index error in the source) is a skip. -/
def applyMatching (f0 f1 : Nat) : Nat → List Int → ReidState → ReidState
  | _, [], s => s
  | idx0, idx1 :: rest, s =>
    let s1 :=
      if 0 ≤ idx1 then
        match lookupRef s.pathOf (f0, idx0) with
        | some pid => appendBox pid (f1, idx1.toNat) s
        | none => s
      else s
    applyMatching f0 f1 (idx0 + 1) rest s1

/-- State of the pair loop: assembly state, progress writes, stop flag. -/
structure ReidRun where
  state : ReidState
  progressLog : List Nat
  stopped : Bool
deriving DecidableEq, Repr

/-- One iteration of the pair loop (views.py 707-729): seed singleton paths
for unassigned `frame0` boxes; if both buckets are nonempty, invoke the
matcher and apply its result; then write progress `int((i+1)/n*100)` (where
`n` is the number of frames in the scope) and poll the job status, stopping
before the next pair if the job was deleted. -/
def reidPairStep (boxes : Nat → List Box) (matcher : Nat → Nat → List Int)
    (alive : Nat → Bool) (n : Nat) (run : ReidRun) (e : Nat × (Nat × Nat)) : ReidRun :=
  if run.stopped then run
  else
    let i := e.1
    let f0 := e.2.1
    let f1 := e.2.2
    let s1 := startPaths f0 (boxes f0).length run.state
    let s2 :=
      if (boxes f0).length ≠ 0 ∧ (boxes f1).length ≠ 0 then
        applyMatching f0 f1 0 (matcher f0 f1) s1
      else s1
    { state := s2,
      progressLog := run.progressLog ++ [((i + 1) * 100) / n],
      stopped := !(alive i) }

/-- The pair loop as a fold over the enumerated consecutive-frame pairs. -/
def reidPairFold (boxes : Nat → List Box) (matcher : Nat → Nat → List Int)
    (alive : Nat → Bool) (n : Nat) (l : List (Nat × (Nat × Nat))) (run : ReidRun) :
    ReidRun :=
  l.foldl (reidPairStep boxes matcher alive n) run

/-- The whole pair sweep of `_call_reid`:
`enumerate(zip(frame_set[:-1], frame_set[1:]))` (views.py 707). -/
def reidPairLoop (boxes : Nat → List Box) (matcher : Nat → Nat → List Int)
    (alive : Nat → Bool) (frameSet : List Nat) : ReidRun :=
  reidPairFold boxes matcher alive frameSet.length
    ((frameSet.zip frameSet.tail).enum) ⟨⟨[], [], []⟩, [], false⟩

/-- A per-frame entry of a persisted track, after the transient-field
cleanup of views.py 750-757 (`outside` set, attributes emptied; the
remaining shape fields are the abstract payload). -/
structure TrackShape where
  frame : Nat
  payload : Nat
  outside : Bool
deriving DecidableEq, Repr

/-- A persisted track (views.py 741-748): label and start frame from the
path's first box, then its shapes. -/
structure Track where
  label_id : Nat
  frame : Nat
  shapes : List TrackShape
deriving DecidableEq, Repr

/-- The box a reference denotes (bucket lookup; out-of-range is a dummy). -/
def boxAt (boxes : Nat → List Box) (r : BoxRef) : Box :=
  (boxes r.1).getD r.2 ⟨0, 0⟩

/-- A path box as a track shape: its bucket frame, its payload,
`outside = false` (views.py 756). -/
def refShape (boxes : Nat → List Box) (r : BoxRef) : TrackShape :=
  { frame := r.1, payload := (boxAt boxes r).payload, outside := false }

/-- The synthetic-terminal rule (views.py 759-764): a track whose last
shape's frame differs from the scope's final frame gets exactly one extra
box, a copy of the last shape with `outside := true` and the frame advanced
by one. The source indexes `shapes[-1]` on never-empty paths; the empty case
is totalized to the identity. -/
def addTerminal (finalFrame : Nat) (shapes : List TrackShape) : List TrackShape :=
  match shapes.getLast? with
  | none => shapes
  | some last =>
    if last.frame ≠ finalFrame then
      shapes ++ [{ last with outside := true, frame := last.frame + 1 }]
    else shapes

/-- One track from one path (views.py 740-764). -/
def mkTrack (boxes : Nat → List Box) (finalFrame : Nat) (path : List BoxRef) : Track :=
  { label_id := (boxAt boxes (path.headD (0, 0))).label_id,
    frame := (path.headD (0, 0)).1,
    shapes := addTerminal finalFrame (path.map (refShape boxes)) }

/-- `_call_reid` track assembly end to end: the pair sweep, then singleton
paths for still-unassigned boxes of the final frame (views.py 732-736; this
runs even after an early break), then one track per path in path-id order. -/
def reidTracks (boxes : Nat → List Box) (matcher : Nat → Nat → List Int)
    (alive : Nat → Bool) (frameSet : List Nat) : List Track :=
  match frameSet.getLast? with
  | none => []
  | some lastFrame =>
    let run := reidPairLoop boxes matcher alive frameSet
    let s := startPaths lastFrame (boxes lastFrame).length run.state
    s.paths.map (mkTrack boxes lastFrame)

/-! ### Concrete re-ID scenarios -/

/-- Three frames holding one box each (labels 1/2/3, payloads 10/20/30). -/
def scenBoxes : Nat → List Box
  | 0 => [⟨1, 10⟩]
  | 1 => [⟨2, 20⟩]
  | 2 => [⟨3, 30⟩]
  | _ => []

/-- A matcher that matches frame 0 to frame 1 (index 0 to 0) and reports
no-match for every later pair. -/
def scenMatcher : Nat → Nat → List Int
  | 0, _ => [0]
  | _, _ => [-1]

/-- Two boxes in frame 0, one in frame 1. -/
def dupBoxes : Nat → List Box
  | 0 => [⟨1, 10⟩, ⟨2, 20⟩]
  | 1 => [⟨3, 30⟩]
  | _ => []

/-- A degenerate matcher that matches both frame-0 boxes to the single
frame-1 box. -/
def dupMatcher : Nat → Nat → List Int := fun _ _ => [0, 0]

/-! ### Theorems for C2, C4, C6 -/

/-- Claim C2, counterexample: with two frame-0 boxes, one frame-1 box, and a
matcher answering `[0, 0]`, the frame-1 box at index 0 is appended to both
paths — after the pair sweep it belongs to 2 paths, refuting that a box
matched to more than one path is impossible for every matcher result. -/
theorem C2_counterexample :
    (((reidPairLoop dupBoxes dupMatcher (fun _ => true) [0, 1]).state.paths.filter
        (fun p => decide (((1, 0) : BoxRef) ∈ p))).length) = 2 := by decide

/-- The append events of one matching application extend the log by entries
whose targets form a sublist of the matched (nonnegative) indices. -/
def matchedTargets : List Int → List Nat
  | [] => []
  | x :: rest => if 0 ≤ x then x.toNat :: matchedTargets rest else matchedTargets rest

theorem applyMatching_cons (f0 f1 i : Nat) (x : Int) (rest : List Int) (s : ReidState) :
    applyMatching f0 f1 i (x :: rest) s =
      applyMatching f0 f1 (i + 1) rest
        (if 0 ≤ x then
          match lookupRef s.pathOf (f0, i) with
          | some pid => appendBox pid (f1, x.toNat) s
          | none => s
        else s) := rfl

theorem matchedTargets_cons (x : Int) (rest : List Int) :
    matchedTargets (x :: rest) =
      if 0 ≤ x then x.toNat :: matchedTargets rest else matchedTargets rest := rfl

theorem applyMatching_log (f0 f1 : Nat) (m : List Int) :
    ∀ (i : Nat) (s : ReidState),
      ∃ ev, (applyMatching f0 f1 i m s).appendLog = s.appendLog ++ ev ∧
        (ev.map (fun e => e.2.2)).Sublist (matchedTargets m) := by
  induction m with
  | nil =>
    intro i s
    exact ⟨[], by simp [applyMatching], by simp [matchedTargets]⟩
  | cons x rest ih =>
    intro i s
    rw [applyMatching_cons]
    by_cases hx : 0 ≤ x
    · rw [if_pos hx]
      cases hl : lookupRef s.pathOf (f0, i) with
      | none =>
        obtain ⟨ev, h1, h2⟩ := ih (i + 1) s
        refine ⟨ev, h1, ?_⟩
        rw [matchedTargets_cons, if_pos hx]
        exact List.Sublist.cons _ h2
      | some pid =>
        obtain ⟨ev, h1, h2⟩ := ih (i + 1) (appendBox pid (f1, x.toNat) s)
        refine ⟨(pid, (f1, x.toNat)) :: ev, ?_, ?_⟩
        · rw [h1]
          show (s.appendLog ++ [(pid, (f1, x.toNat))]) ++ ev = _
          rw [List.append_assoc]
          rfl
        · rw [matchedTargets_cons, if_pos hx]
          exact List.Sublist.cons₂ _ h2
    · rw [if_neg hx]
      obtain ⟨ev, h1, h2⟩ := ih (i + 1) s
      refine ⟨ev, h1, ?_⟩
      rw [matchedTargets_cons, if_neg hx]
      exact h2

/-- Claim C2, amended: within one frame pair, if the matcher's nonnegative
answers are pairwise distinct, then each `boxes1` index is appended to at
most one path: the targets of the append events produced by this pair are
without duplicates. (The counterexample shows this fails for arbitrary
matcher output, which the source trusts unchecked.) -/
theorem C2_amended (f0 f1 : Nat) (m : List Int) (s : ReidState)
    (hnd : (matchedTargets m).Nodup) :
    ((((applyMatching f0 f1 0 m s).appendLog).drop s.appendLog.length).map
      (fun e => e.2.2)).Nodup := by
  obtain ⟨ev, h1, h2⟩ := applyMatching_log f0 f1 m 0 s
  rw [h1, List.drop_left]
  exact List.Nodup.sublist h2 hnd

/-- A seeded two-path state for the C2 witness. -/
def c2WitnessState : ReidState :=
  ⟨[[(0, 0)], [(0, 1)]], [((0, 0), 0), ((0, 1), 1)], []⟩

/-- Witness for C2_amended: distinct matched indices `[0, 1]` yield
duplicate-free append targets. -/
theorem C2_witness :
    ((((applyMatching 0 1 0 [0, 1] c2WitnessState).appendLog).drop
        c2WitnessState.appendLog.length).map (fun e => e.2.2)).Nodup :=
  C2_amended 0 1 [0, 1] c2WitnessState (by decide)

/-- Claim C4, counterexample: with 3 frames the two pair iterations report
progress 33 then 66 — `int((i+1)/len(frame_set)*100)`, the divisor being the
frame count — not the 50 and 100 that pairs-processed over total pairs
would give; progress does not reach 100 after the final pair. -/
theorem C4_counterexample :
    (reidPairLoop scenBoxes scenMatcher (fun _ => true) [0, 1, 2]).progressLog =
      [33, 66] ∧
    (reidPairLoop scenBoxes scenMatcher (fun _ => true) [0, 1, 2]).progressLog ≠
      [50, 100] := by
  exact ⟨by decide, by decide⟩

theorem reidPairStep_live (boxes : Nat → List Box) (matcher : Nat → Nat → List Int)
    (n : Nat) (r : ReidRun) (e : Nat × (Nat × Nat)) (h : r.stopped = false) :
    (reidPairStep boxes matcher (fun _ => true) n r e).progressLog =
      r.progressLog ++ [((e.1 + 1) * 100) / n] ∧
    (reidPairStep boxes matcher (fun _ => true) n r e).stopped = false := by
  constructor <;> simp [reidPairStep, h]

theorem reidPairFold_log_all (boxes : Nat → List Box) (matcher : Nat → Nat → List Int)
    (n : Nat) :
    ∀ (l : List (Nat × (Nat × Nat))) (r : ReidRun), r.stopped = false →
      (reidPairFold boxes matcher (fun _ => true) n l r).progressLog =
        r.progressLog ++ l.map (fun e => ((e.1 + 1) * 100) / n) ∧
      (reidPairFold boxes matcher (fun _ => true) n l r).stopped = false := by
  intro l
  induction l with
  | nil =>
    intro r h
    exact ⟨by simp [reidPairFold], h⟩
  | cons e t ih =>
    intro r h
    have hstep := reidPairStep_live boxes matcher n r e h
    have hfold : reidPairFold boxes matcher (fun _ => true) n (e :: t) r =
        reidPairFold boxes matcher (fun _ => true) n t
          (reidPairStep boxes matcher (fun _ => true) n r e) := rfl
    rw [hfold]
    obtain ⟨ih1, ih2⟩ := ih _ hstep.2
    refine ⟨?_, ih2⟩
    rw [ih1, hstep.1, List.append_assoc]
    rfl

/-- Claim C4, amended: after pair `i` the reported progress is
`((i+1)*100)/N` where `N` is the number of frames in the scope (not the
number of pairs), so an uncancelled sweep reports
`[100/N, 200/N, ..., ((N-1)*100)/N]` and the final value `((N-1)*100)/N` is
strictly below 100 whenever the scope has at least two frames. -/
theorem C4_amended (boxes : Nat → List Box) (matcher : Nat → Nat → List Int)
    (fs : List Nat) :
    (reidPairLoop boxes matcher (fun _ => true) fs).progressLog =
      (List.range (fs.zip fs.tail).length).map
        (fun i => ((i + 1) * 100) / fs.length) ∧
    (2 ≤ fs.length → ((fs.length - 1) * 100) / fs.length < 100) := by
  constructor
  · unfold reidPairLoop
    have h := reidPairFold_log_all boxes matcher fs.length
      ((fs.zip fs.tail).enum) ⟨⟨[], [], []⟩, [], false⟩ rfl
    rw [h.1]
    have hmap : ((fs.zip fs.tail).enum).map (fun e => ((e.1 + 1) * 100) / fs.length) =
        (List.range (fs.zip fs.tail).length).map
          (fun i => ((i + 1) * 100) / fs.length) := by
      rw [← List.enum_map_fst (fs.zip fs.tail), List.map_map]
      rfl
    rw [hmap]
    rfl
  · intro h2
    rw [Nat.div_lt_iff_lt_mul (by omega : 0 < fs.length)]
    omega

/-- Witness for C4_amended on the three-frame scenario. -/
theorem C4_witness :
    ((([0, 1, 2] : List Nat).length - 1) * 100) / ([0, 1, 2] : List Nat).length < 100 :=
  (C4_amended scenBoxes scenMatcher [0, 1, 2]).2 (by decide)

/-- Claim C6: a track whose last shape sits strictly before the scope's
final frame receives exactly one synthetic terminal box — a copy of the last
shape with `outside := true` and the frame advanced by one — while a track
ending on the final frame gets none; and on the 3-frame break scenario
(match 0→1, no-match 1→2) the assembler emits exactly two tracks: one from
frame 0 ending with a real shape at frame 1 plus an outside copy at frame 2,
and one singleton starting at frame 2. -/
theorem C6_synthetic_terminal :
    (∀ (final : Nat) (shapes : List TrackShape) (last : TrackShape),
      shapes.getLast? = some last →
      (last.frame < final →
        addTerminal final shapes =
          shapes ++ [{ last with outside := true, frame := last.frame + 1 }]) ∧
      (last.frame = final → addTerminal final shapes = shapes)) ∧
    reidTracks scenBoxes scenMatcher (fun _ => true) [0, 1, 2] =
      [⟨1, 0, [⟨0, 10, false⟩, ⟨1, 20, false⟩, ⟨2, 20, true⟩]⟩,
       ⟨3, 2, [⟨2, 30, false⟩]⟩] := by
  constructor
  · intro final shapes last h
    constructor
    · intro hlt
      unfold addTerminal
      rw [h]
      dsimp only
      rw [if_pos (Nat.ne_of_lt hlt)]
    · intro heq
      unfold addTerminal
      rw [h]
      dsimp only
      rw [if_neg (by simp [heq])]
  · decide

/-- Witness for C6_synthetic_terminal: a one-shape track at frame 1 in a
scope ending at frame 2 gains the outside copy at frame 2. -/
theorem C6_witness :
    addTerminal 2 [⟨1, 5, false⟩] = [⟨1, 5, false⟩, ⟨2, 5, true⟩] := by
  have h := (C6_synthetic_terminal.1 2 [⟨1, 5, false⟩] ⟨1, 5, false⟩ rfl).1 (by decide)
  simpa using h

/-! ### Temporal lemmas for C9 -/

theorem progOf_mono (size : Nat) {a b : Nat} (h : a ≤ b) :
    progOf size a ≤ progOf size b :=
  Nat.div_le_div_right (by omega)

theorem detSubmit_log (t : Option Nat) (r : DetRun) :
    (detSubmit t r).progressLog = r.progressLog := by
  unfold detSubmit; split <;> rfl

theorem detSubmit_commits (t : Option Nat) (r : DetRun) :
    ∃ c, (detSubmit t r).commits = r.commits ++ c := by
  unfold detSubmit
  split
  · exact ⟨[], by simp⟩
  · exact ⟨_, rfl⟩

theorem detStep_log (size : Nat) (deleted : List Nat) (annos : Nat → Nat)
    (alive : Nat → Bool) (r : DetRun) (frame : Nat) :
    (detStep size deleted annos alive r frame).progressLog = r.progressLog ∨
    (detStep size deleted annos alive r frame).progressLog =
      r.progressLog ++ [progOf size frame] := by
  unfold detStep
  split_ifs
  · exact Or.inl rfl
  · exact Or.inl rfl
  · exact Or.inr rfl
  · exact Or.inr (by rw [detSubmit_log])
  · exact Or.inr rfl

theorem detStep_commits (size : Nat) (deleted : List Nat) (annos : Nat → Nat)
    (alive : Nat → Bool) (r : DetRun) (frame : Nat) :
    ∃ c, (detStep size deleted annos alive r frame).commits = r.commits ++ c := by
  unfold detStep
  split_ifs
  · exact ⟨[], by simp⟩
  · exact ⟨[], by simp⟩
  · exact ⟨[], by simp⟩
  · exact detSubmit_commits _ _
  · exact ⟨[], by simp⟩

theorem detStep_stopped (size : Nat) (deleted : List Nat) (annos : Nat → Nat)
    (alive : Nat → Bool) (r : DetRun) (frame : Nat) (h : r.stopped = true) :
    detStep size deleted annos alive r frame = r := by
  unfold detStep
  rw [if_pos h]

theorem detLoop_stopped (size : Nat) (deleted : List Nat) (annos : Nat → Nat)
    (alive : Nat → Bool) :
    ∀ (fs : List Nat) (r : DetRun), r.stopped = true →
      detLoop size deleted annos alive fs r = r := by
  intro fs
  induction fs with
  | nil => intro r _; rfl
  | cons f t ih =>
    intro r h
    show detLoop size deleted annos alive t (detStep size deleted annos alive r f) = r
    rw [detStep_stopped size deleted annos alive r f h]
    exact ih r h

theorem detLoop_commits (size : Nat) (deleted : List Nat) (annos : Nat → Nat)
    (alive : Nat → Bool) :
    ∀ (fs : List Nat) (r : DetRun),
      ∃ c, (detLoop size deleted annos alive fs r).commits = r.commits ++ c := by
  intro fs
  induction fs with
  | nil => intro r; exact ⟨[], by simp [detLoop]⟩
  | cons f t ih =>
    intro r
    obtain ⟨c1, h1⟩ := detStep_commits size deleted annos alive r f
    obtain ⟨c2, h2⟩ := ih (detStep size deleted annos alive r f)
    refine ⟨c1 ++ c2, ?_⟩
    show (detLoop size deleted annos alive t (detStep size deleted annos alive r f)).commits = _
    rw [h2, h1, List.append_assoc]

theorem detLoop_log_pairwise (size : Nat) (deleted : List Nat) (annos : Nat → Nat)
    (alive : Nat → Bool) :
    ∀ (fs : List Nat) (r : DetRun),
      fs.Pairwise (· ≤ ·) →
      r.progressLog.Pairwise (· ≤ ·) →
      (∀ x ∈ r.progressLog, ∀ f ∈ fs, x ≤ progOf size f) →
      ((detLoop size deleted annos alive fs r).progressLog).Pairwise (· ≤ ·) := by
  intro fs
  induction fs with
  | nil => intro r _ hp _; exact hp
  | cons f t ih =>
    intro r hfs hp hb
    have hfs' : t.Pairwise (· ≤ ·) := (List.pairwise_cons.mp hfs).2
    have hf_le : ∀ g ∈ t, f ≤ g := (List.pairwise_cons.mp hfs).1
    have hstep := detStep_log size deleted annos alive r f
    show ((detLoop size deleted annos alive t
        (detStep size deleted annos alive r f)).progressLog).Pairwise (· ≤ ·)
    apply ih _ hfs'
    · rcases hstep with h | h
      · rw [h]; exact hp
      · rw [h, List.pairwise_append]
        refine ⟨hp, List.pairwise_singleton _ _, fun a ha b hb' => ?_⟩
        rw [List.mem_singleton] at hb'
        subst hb'
        exact hb a ha f (List.mem_cons_self f t)
    · intro x hx g hg
      rcases hstep with h | h
      · rw [h] at hx
        exact hb x hx g (List.mem_cons_of_mem f hg)
      · rw [h] at hx
        rcases List.mem_append.mp hx with hx1 | hx2
        · exact hb x hx1 g (List.mem_cons_of_mem f hg)
        · rw [List.mem_singleton] at hx2
          subst hx2
          exact progOf_mono size (hf_le g hg)

theorem reidPairStep_log (boxes : Nat → List Box) (matcher : Nat → Nat → List Int)
    (alive : Nat → Bool) (n : Nat) (r : ReidRun) (e : Nat × (Nat × Nat)) :
    (reidPairStep boxes matcher alive n r e).progressLog = r.progressLog ∨
    (reidPairStep boxes matcher alive n r e).progressLog =
      r.progressLog ++ [((e.1 + 1) * 100) / n] := by
  unfold reidPairStep
  split_ifs
  · exact Or.inl rfl
  · exact Or.inr rfl

theorem reidPairStep_stopped (boxes : Nat → List Box) (matcher : Nat → Nat → List Int)
    (alive : Nat → Bool) (n : Nat) (r : ReidRun) (e : Nat × (Nat × Nat))
    (h : r.stopped = true) :
    reidPairStep boxes matcher alive n r e = r := by
  unfold reidPairStep
  rw [if_pos h]

theorem reidPairFold_stopped (boxes : Nat → List Box) (matcher : Nat → Nat → List Int)
    (alive : Nat → Bool) (n : Nat) :
    ∀ (l : List (Nat × (Nat × Nat))) (r : ReidRun), r.stopped = true →
      reidPairFold boxes matcher alive n l r = r := by
  intro l
  induction l with
  | nil => intro r _; rfl
  | cons e t ih =>
    intro r h
    show reidPairFold boxes matcher alive n t
        (reidPairStep boxes matcher alive n r e) = r
    rw [reidPairStep_stopped boxes matcher alive n r e h]
    exact ih r h

theorem reidPairFold_log_pairwise (boxes : Nat → List Box)
    (matcher : Nat → Nat → List Int) (alive : Nat → Bool) (n : Nat) :
    ∀ (l : List (Nat × (Nat × Nat))) (r : ReidRun),
      l.Pairwise (fun a b => a.1 ≤ b.1) →
      r.progressLog.Pairwise (· ≤ ·) →
      (∀ x ∈ r.progressLog, ∀ e ∈ l, x ≤ ((e.1 + 1) * 100) / n) →
      ((reidPairFold boxes matcher alive n l r).progressLog).Pairwise (· ≤ ·) := by
  intro l
  induction l with
  | nil => intro r _ hp _; exact hp
  | cons e t ih =>
    intro r hl hp hb
    have hl' : t.Pairwise (fun a b => a.1 ≤ b.1) := (List.pairwise_cons.mp hl).2
    have he_le : ∀ g ∈ t, e.1 ≤ g.1 := (List.pairwise_cons.mp hl).1
    have hstep := reidPairStep_log boxes matcher alive n r e
    show ((reidPairFold boxes matcher alive n t
        (reidPairStep boxes matcher alive n r e)).progressLog).Pairwise (· ≤ ·)
    apply ih _ hl'
    · rcases hstep with h | h
      · rw [h]; exact hp
      · rw [h, List.pairwise_append]
        refine ⟨hp, List.pairwise_singleton _ _, fun a ha b hb' => ?_⟩
        rw [List.mem_singleton] at hb'
        subst hb'
        exact hb a ha e (List.mem_cons_self e t)
    · intro x hx g hg
      rcases hstep with h | h
      · rw [h] at hx
        exact hb x hx g (List.mem_cons_of_mem e hg)
      · rw [h] at hx
        rcases List.mem_append.mp hx with hx1 | hx2
        · exact hb x hx1 g (List.mem_cons_of_mem e hg)
        · rw [List.mem_singleton] at hx2
          subst hx2
          exact Nat.div_le_div_right (by have := he_le g hg; omega)

/-- Claim C9: within one run, (1) the detector's progress writes are
monotonically non-decreasing for any sorted frame set, (2) the re-ID pair
sweep's progress writes are always monotonically non-decreasing, (3)/(4)
once the status poll observes the deleted job record (`stopped`), the
detector loop and the pair sweep process nothing further — the state is
frozen — and (5) everything committed by any loop prefix remains an
unchanged prefix of the commits of the whole run, including its final
flush. -/
theorem C9_progress_monotone_and_cancellation :
    (∀ (size : Nat) (deleted : List Nat) (annos : Nat → Nat) (alive : Nat → Bool)
        (fs : List Nat), fs.Pairwise (· ≤ ·) →
      ((detRun size deleted annos alive fs).progressLog).Pairwise (· ≤ ·)) ∧
    (∀ (boxes : Nat → List Box) (matcher : Nat → Nat → List Int) (alive : Nat → Bool)
        (fs : List Nat),
      ((reidPairLoop boxes matcher alive fs).progressLog).Pairwise (· ≤ ·)) ∧
    (∀ (size : Nat) (deleted : List Nat) (annos : Nat → Nat) (alive : Nat → Bool)
        (fs : List Nat) (r : DetRun), r.stopped = true →
      detLoop size deleted annos alive fs r = r) ∧
    (∀ (boxes : Nat → List Box) (matcher : Nat → Nat → List Int) (alive : Nat → Bool)
        (n : Nat) (l : List (Nat × (Nat × Nat))) (r : ReidRun), r.stopped = true →
      reidPairFold boxes matcher alive n l r = r) ∧
    (∀ (size : Nat) (deleted : List Nat) (annos : Nat → Nat) (alive : Nat → Bool)
        (fs1 fs2 : List Nat), ∃ c,
      (detRun size deleted annos alive (fs1 ++ fs2)).commits =
        (detLoop size deleted annos alive fs1 detInit).commits ++ c) := by
  refine ⟨?_, ?_, ?_, ?_, ?_⟩
  · intro size deleted annos alive fs hfs
    unfold detRun
    rw [detSubmit_log]
    exact detLoop_log_pairwise size deleted annos alive fs detInit hfs
      (List.Pairwise.nil) (by intro x hx; cases hx)
  · intro boxes matcher alive fs
    unfold reidPairLoop
    have henum : ((fs.zip fs.tail).enum).Pairwise (fun a b => a.1 ≤ b.1) := by
      have h1 : (((fs.zip fs.tail).enum).map Prod.fst).Pairwise (· ≤ ·) := by
        rw [List.enum_map_fst]
        exact (List.pairwise_lt_range _).imp Nat.le_of_lt
      exact (List.pairwise_map.mp h1)
    exact reidPairFold_log_pairwise boxes matcher alive fs.length
      ((fs.zip fs.tail).enum) ⟨⟨[], [], []⟩, [], false⟩ henum
      (List.Pairwise.nil) (by intro x hx; cases hx)
  · exact detLoop_stopped
  · exact reidPairFold_stopped
  · intro size deleted annos alive fs1 fs2
    have happ : detLoop size deleted annos alive (fs1 ++ fs2) detInit =
        detLoop size deleted annos alive fs2
          (detLoop size deleted annos alive fs1 detInit) := by
      unfold detLoop
      rw [List.foldl_append]
    obtain ⟨c1, h1⟩ := detLoop_commits size deleted annos alive fs2
      (detLoop size deleted annos alive fs1 detInit)
    obtain ⟨c2, h2⟩ := detSubmit_commits none
      (detLoop size deleted annos alive (fs1 ++ fs2) detInit)
    refine ⟨c1 ++ c2, ?_⟩
    unfold detRun
    rw [h2, happ, h1, List.append_assoc]

/-- Witness for C9 on a concrete two-frame detector run. -/
theorem C9_witness :
    ((detRun 2 [] (fun _ => 1) (fun _ => true) [0, 1]).progressLog).Pairwise (· ≤ ·) :=
  C9_progress_monotone_and_cancellation.1 2 [] (fun _ => 1) (fun _ => true) [0, 1]
    (by decide)

end Spec2Proof
